import Mathlib

/-!
Shallow embedding of the DRF_Controller repository (src/Code/Controller.py and
src/Code/kueue_integration.py) and verification of the specification's claims.

Python floats are modelled as rationals, `datetime` instants as rational
seconds, Python dictionaries keyed by `ResourceType` as a record of `Option`
fields (a missing key is `none`), and exceptions as `Option` results.
-/

namespace DRF

/-- The `JobPriority` enumeration from Controller.py (NORMAL = "Normal",
URGENT = "Urgent"). -/
inductive JobPriority where
  | NORMAL
  | URGENT
deriving DecidableEq

/-- The `ResourceType` enumeration from Controller.py (CPU = "cpu", GPU = "gpu",
MEMORY = "memory"). -/
inductive ResourceType where
  | CPU
  | GPU
  | MEMORY
deriving DecidableEq

/-- A Python `Dict[ResourceType, float]`: each of the three possible keys is
either absent (`none`) or mapped to a rational value. -/
structure ResourceDict where
  cpu : Option ℚ := none
  gpu : Option ℚ := none
  memory : Option ℚ := none
deriving DecidableEq

/-- Dictionary lookup `d[k]` / membership test `k in d`. -/
def ResourceDict.get (d : ResourceDict) : ResourceType → Option ℚ
  | .CPU => d.cpu
  | .GPU => d.gpu
  | .MEMORY => d.memory

/-- The three possible keys, in the insertion order used by
`_extract_job_info` (CPU, then MEMORY, then GPU). -/
def resourceKeys : List ResourceType := [.CPU, .MEMORY, .GPU]

/-- Python `d.items()`: the present key/value pairs, in key insertion order. -/
def ResourceDict.items (d : ResourceDict) : List (ResourceType × ℚ) :=
  resourceKeys.filterMap (fun k => (d.get k).map (fun v => (k, v)))

/-- The `JobInfo` pydantic model from Controller.py. Timestamps are rational
seconds since an arbitrary epoch. -/
structure JobInfo where
  name : String
  namespace_field : String
  priority : JobPriority
  creation_timestamp : ℚ
  resources : ResourceDict
  gang_scheduling : Bool := false
  gang_id : Option String := none
deriving DecidableEq

/-- The `ClusterInfo` pydantic model from Controller.py. -/
structure ClusterInfo where
  total_resources : ResourceDict
  allocated_resources : ResourceDict
deriving DecidableEq

/-- Python `max(list)` guarded by the emptiness check in
`calculate_dominant_share`: the maximum of a non-empty list, `0.0` for `[]`. -/
def pymax : List ℚ → ℚ
  | [] => 0
  | s :: rest => rest.foldl max s

/-- The list `dominant_shares` built by the loop of
`DRFScheduler.calculate_dominant_share` (Controller.py lines 74-93): for each
resource key present in `job.resources`, if the key is in
`cluster_info.total_resources` and the total is positive, the ratio
requested/total is appended; otherwise the key is skipped. -/
def share_list (job : JobInfo) (cluster_info : ClusterInfo) : List ℚ :=
  job.resources.items.filterMap (fun kv =>
    match cluster_info.total_resources.get kv.1 with
    | some total => if 0 < total then some (kv.2 / total) else none
    | none => none)

/-- Embeds `DRFScheduler.calculate_dominant_share` (Controller.py lines 63-101):
`max(dominant_shares)` when the list is non-empty, otherwise `0.0`. -/
def calculate_dominant_share (job : JobInfo) (cluster_info : ClusterInfo) : ℚ :=
  pymax (share_list job cluster_info)

/-- The spec's dominant-share formula, stated in the spec's own words: for
every kind `k` with `C.totals[k] > 0` compute `J.request[k] / C.totals[k]`
(a missing request is zero); kinds whose total is `0` or absent are skipped;
the dominant share is the max of the considered ratios, or `0` if none is
considered. Used only to compare against `calculate_dominant_share`. -/
def spec_dominant_share (job : JobInfo) (cluster_info : ClusterInfo) : ℚ :=
  pymax (resourceKeys.filterMap (fun k =>
    match cluster_info.total_resources.get k with
    | some total =>
        if 0 < total then some (((job.resources.get k).getD 0) / total) else none
    | none => none))

/-- The claim's `classWeight`: 0 for URGENT, 1000 for NORMAL. -/
def classWeight : JobPriority → ℚ
  | .URGENT => 0
  | .NORMAL => 1000

/-- Default `aging_alpha` of the `DRFScheduler` constructor (0.1). -/
def default_aging_alpha : ℚ := 1 / 10

/-- Embeds `DRFScheduler.calculate_priority_score` (Controller.py lines 123-155):
`priority_weight + dominant_share - aging_factor`, where
`aging_factor = aging_alpha * (now - creation_timestamp)` (seconds, unclamped)
and `priority_weight` is 0 for URGENT and 1000 otherwise. `now` stands for
`datetime.now()`. -/
def calculate_priority_score (aging_alpha now : ℚ) (job : JobInfo)
    (cluster_info : ClusterInfo) : ℚ :=
  let dominant_share := calculate_dominant_share job cluster_info
  let time_diff := now - job.creation_timestamp
  let aging_factor := aging_alpha * time_diff
  let priority_weight : ℚ := if job.priority = .URGENT then 0 else 1000
  priority_weight + dominant_share - aging_factor

/-- Python truthiness of a `JobInfo` pydantic instance: an object is always
truthy, so `all(job for job in gang_jobs)` in `handle_gang_scheduling` tests
this constant-true predicate on every member. -/
def jobinfo_truthy (_ : JobInfo) : Bool := true

/-- Python truthiness of an `Optional[str]`: `None` and the empty string are
falsy, every other string is truthy. -/
def str_truthy : Option String → Bool
  | none => false
  | some s => !(s == "")

/-- Insertion into the `gang_groups` dictionary: appends `j` to the list at
key `gid`, creating the key at the end if absent (Python dict insertion
order). -/
def add_to_group (groups : List (String × List JobInfo)) (gid : String)
    (j : JobInfo) : List (String × List JobInfo) :=
  match groups with
  | [] => [(gid, [j])]
  | (g, l) :: rest =>
      if g = gid then (g, l ++ [j]) :: rest
      else (g, l) :: add_to_group rest gid j

/-- The `gang_groups` dictionary built by `handle_gang_scheduling`
(Controller.py lines 357-364): jobs with `gang_scheduling` set and a truthy
`gang_id`, grouped by `gang_id`. -/
def gang_groups (jobs : List JobInfo) : List (String × List JobInfo) :=
  jobs.foldl (fun gs j =>
    if j.gang_scheduling && str_truthy j.gang_id then
      add_to_group gs (j.gang_id.getD "") j
    else gs) []

/-- Embeds `K8SController.handle_gang_scheduling` (Controller.py lines 347-376):
`ready_gangs` collects every group whose members all satisfy
`all(job for job in gang_jobs)` (Python truthiness, hence every group), then
the jobs with `gang_scheduling` unset are appended. -/
def handle_gang_scheduling (jobs : List JobInfo) : List JobInfo :=
  let groups := gang_groups jobs
  let ready_gangs := groups.foldl
    (fun acc g => if g.2.all jobinfo_truthy then acc ++ g.2 else acc) []
  let non_gang_jobs := jobs.filter (fun j => !j.gang_scheduling)
  ready_gangs ++ non_gang_jobs

/-- The comparison key of `job_priorities.sort(key=lambda x: x[1])`:
score of the first pair is at most the score of the second. -/
def score_le (a b : JobInfo × ℚ) : Prop := a.2 ≤ b.2

instance : DecidableRel score_le := fun a b =>
  inferInstanceAs (Decidable (a.2 ≤ b.2))

instance : IsTotal (JobInfo × ℚ) score_le := ⟨fun a b => le_total a.2 b.2⟩

instance : IsTrans (JobInfo × ℚ) score_le :=
  ⟨fun _ _ _ h₁ h₂ => le_trans h₁ h₂⟩

/-- The strict version of `score_le`, used to identify two score-sorted
lists whose scores are pairwise distinct. -/
def score_lt (a b : JobInfo × ℚ) : Prop := a.2 < b.2

instance : IsAntisymm (JobInfo × ℚ) score_lt :=
  ⟨fun _ _ h₁ h₂ => absurd h₂ (not_lt.mpr (le_of_lt h₁))⟩

/-- Python `list.sort(key=lambda x: x[1])` / `sorted(key=lambda x: x[1])`:
a stable sort by score. Insertion sort with `score_le` is extensionally the
same function as any stable sort by the same key. -/
def py_sort_by_score (l : List (JobInfo × ℚ)) : List (JobInfo × ℚ) :=
  l.insertionSort score_le

/-- The pure part of `K8SController.calculate_job_priorities` (Controller.py
lines 378-409) after observation: apply the gang filter, score every
schedulable job, and sort by score ascending. -/
def calculate_job_priorities_pure (aging_alpha now : ℚ) (jobs : List JobInfo)
    (cluster_info : ClusterInfo) : List (JobInfo × ℚ) :=
  let schedulable_jobs := handle_gang_scheduling jobs
  let job_priorities := schedulable_jobs.map
    (fun j => (j, calculate_priority_score aging_alpha now j cluster_info))
  py_sort_by_score job_priorities

/-- Python `s.endswith(t)`, on the underlying character lists. -/
def ends_with (s t : String) : Bool :=
  s.data.drop (s.data.length - t.data.length) == t.data

/-- Python slicing `s[:-n]`: the string without its final `n` characters. -/
def drop_right (s : String) (n : ℕ) : String :=
  ⟨s.data.take (s.data.length - n)⟩

/-- Python `s.lower()` restricted to ASCII (the only strings compared are
the annotation values `true`/`false`). -/
def lower_str (s : String) : String := ⟨s.data.map Char.toLower⟩

/-- Split a character list at every `.` (Python `float` grammar helper). -/
def splitDot : List Char → List (List Char)
  | [] => [[]]
  | c :: cs =>
      let rest := splitDot cs
      if c = '.' then [] :: rest
      else
        match rest with
        | [] => [[c]]
        | g :: gs => (c :: g) :: gs

/-- Value of a digit string. -/
def digitsToNat (l : List Char) : ℕ :=
  l.foldl (fun acc c => acc * 10 + (c.toNat - 48)) 0

/-- Python `float(s)` restricted to the unsigned decimal numerals that occur
in resource quantity strings: digits with at most one decimal point and at
least one digit; anything else raises `ValueError`, modelled as `none`. -/
def parse_float (s : String) : Option ℚ :=
  match splitDot s.data with
  | [a] =>
      if a ≠ [] ∧ a.all Char.isDigit then some ((digitsToNat a : ℕ) : ℚ)
      else none
  | [a, b] =>
      if (a ≠ [] ∨ b ≠ []) ∧ a.all Char.isDigit ∧ b.all Char.isDigit then
        some (((digitsToNat a : ℕ) : ℚ)
          + ((digitsToNat b : ℕ) : ℚ) / (10 : ℚ) ^ b.length)
      else none
  | _ => none

/-- Embeds `K8SController._parse_cpu_request` (Controller.py lines 275-279):
a trailing `m` divides by 1000, otherwise the string is parsed as-is. -/
def parse_cpu_request (cpu_str : String) : Option ℚ :=
  if ends_with cpu_str "m" then
    (parse_float (drop_right cpu_str 1)).map (fun v => v / 1000)
  else parse_float cpu_str

/-- Embeds `K8SController._parse_memory_request` (Controller.py lines 281-292):
`Ki`/`Mi`/`Gi`/`Ti` suffixes are powers of 1024 relative to MiB; an
unsuffixed string is bytes divided by 1024². -/
def parse_memory_request (memory_str : String) : Option ℚ :=
  if ends_with memory_str "Ki" then
    (parse_float (drop_right memory_str 2)).map (fun v => v / 1024)
  else if ends_with memory_str "Mi" then
    parse_float (drop_right memory_str 2)
  else if ends_with memory_str "Gi" then
    (parse_float (drop_right memory_str 2)).map (fun v => v * 1024)
  else if ends_with memory_str "Ti" then
    (parse_float (drop_right memory_str 2)).map (fun v => v * 1024 * 1024)
  else
    (parse_float memory_str).map (fun v => v / (1024 * 1024))

/-- The `metadata.annotations` dictionary of a batch job, restricted to the
three keys the controller reads (`priority`, `gang-scheduling`, `gang-id`). -/
structure Anns where
  priority_ann : Option String := none
  gang_scheduling_ann : Option String := none
  gang_id_ann : Option String := none
deriving DecidableEq

/-- The raw fields of a Kubernetes Job object consumed by
`_extract_job_info`: metadata plus the first container's resource request
strings (a `none` request covers a missing key, a missing requests dict and
a missing containers list alike). `anns = none` covers an absent or empty
annotations dictionary (both falsy in Python). -/
structure RawJob where
  name : String
  namespace_field : String
  creation_timestamp : ℚ
  anns : Option Anns := none
  cpu_request : Option String := none
  memory_request : Option String := none
  gpu_request : Option String := none
deriving DecidableEq

/-- One resource field of `_extract_job_info`: an absent field contributes
no dictionary entry (`some none`), a present field must parse (`none` for a
raised `ValueError`, `some (some v)` on success). -/
def req_field (parse : String → Option ℚ) : Option String → Option (Option ℚ)
  | none => some none
  | some s => (parse s).map some

/-- Embeds `K8SController._extract_job_info` (Controller.py lines 219-273). Any
exception inside the body — in particular a `ValueError` from one of the
quantity parsers — is caught by the surrounding `except` and turns the whole
result into `None`; a present field therefore aborts extraction when its
parse fails, while an absent field simply contributes no dictionary entry. -/
def extract_job_info (raw : RawJob) : Option JobInfo :=
  let priority : JobPriority :=
    match raw.anns with
    | some a => if a.priority_ann = some "approved" then .URGENT else .NORMAL
    | none => .NORMAL
  (req_field parse_cpu_request raw.cpu_request).bind (fun c =>
    (req_field parse_memory_request raw.memory_request).bind (fun m =>
      (req_field parse_float raw.gpu_request).bind (fun g =>
        let gang_scheduling : Bool :=
          match raw.anns with
          | some a => lower_str (a.gang_scheduling_ann.getD "false") == "true"
          | none => false
        let gang_id : Option String :=
          match raw.anns with
          | some a => a.gang_id_ann
          | none => none
        some { name := raw.name
               namespace_field := raw.namespace_field
               priority := priority
               creation_timestamp := raw.creation_timestamp
               resources := { cpu := c, memory := m, gpu := g }
               gang_scheduling := gang_scheduling
               gang_id := gang_id })))

/-- Python `int()` on a float: truncation toward zero. -/
def py_int (q : ℚ) : ℤ := if 0 ≤ q then ⌊q⌋ else ⌈q⌉

/-- The patch body built by `KueueIntegration._update_workload_priority`
(kueue_integration.py lines 79-104): the three `drf-scheduler` annotations
(score, rank, updater identity) and `spec.priority = int(priority_score *
1000)`. Annotation values are carried as the underlying values rather than
their `str()` images. -/
structure PatchBody where
  priority_score_ann : ℚ
  rank_ann : ℕ
  updated_by : String
  spec_priority : ℤ
deriving DecidableEq

/-- Embeds `KueueIntegration._update_workload_priority` (kueue_integration.py lines
79-104), restricted to the patch body it constructs. -/
def update_workload_priority_patch (priority_score : ℚ) (rank : ℕ) : PatchBody :=
  { priority_score_ann := priority_score
    rank_ann := rank
    updated_by := "drf-controller"
    spec_priority := py_int (priority_score * 1000) }

/-- Consecutive slices `l[i:i+10]` as produced by
`range(0, total_count, batch_size)` with `batch_size = 10`; `fuel` bounds the
recursion and any `fuel ≥ l.length` yields the full slicing. -/
def chunked (fuel : ℕ) (l : List α) : List (List α) :=
  match fuel with
  | 0 => []
  | fuel + 1 =>
      match l with
      | [] => []
      | _ => l.take 10 :: chunked fuel (l.drop 10)

/-- The batches `job_priorities[i:i+batch_size]` for `i = 0, 10, 20, …`. -/
def make_batches (l : List α) : List (List α) := chunked l.length l

/-- The batching performed by `KueueJobManager.update_all_job_priorities`
(kueue_integration.py lines 188-211): sort by score ascending, then slice
into batches of 10. Ranks are bookkeeping added per batch via
`enumerate(…, start=i+1)` and are modelled in `update_plan`. -/
def score_batches (job_priorities : List (JobInfo × ℚ)) :
    List (List (JobInfo × ℚ)) :=
  make_batches (py_sort_by_score job_priorities)

/-- The flat update plan of `KueueJobManager.update_all_job_priorities`:
after sorting by score ascending, the job at position `i` (0-based) receives
rank `i + 1` (the per-batch `enumerate(batch, start=i+1)` numbers the global
sorted order) and the patch of `_update_workload_priority`. -/
def update_plan (job_priorities : List (JobInfo × ℚ)) :
    List (ℕ × JobInfo × PatchBody) :=
  (py_sort_by_score job_priorities).enum.map
    (fun p => (p.1 + 1, p.2.1, update_workload_priority_patch p.2.2 (p.1 + 1)))

/-- The shape of `(chunked fuel l).map List.length`, on lengths alone. -/
def length_batches : ℕ → ℕ → List ℕ
  | 0, _ => []
  | _ + 1, 0 => []
  | fuel + 1, n + 1 => min 10 (n + 1) :: length_batches fuel (n + 1 - 10)

/-- All jobs held in the `gang_groups` dictionary, across groups. -/
def groupMembers (gs : List (String × List JobInfo)) : List JobInfo :=
  (gs.map Prod.snd).flatten

/-- Cluster of the spec's end-to-end scenario 1: CPU 32, GPU 8, MEM 131072. -/
def cexCluster : ClusterInfo :=
  { total_resources := { cpu := some 32, gpu := some 8, memory := some 131072 }
    allocated_resources := {} }

/-- Job A of the spec's scenario 1: URGENT, request CPU 4, GPU 2, MEM 8192. -/
def cexJobA : JobInfo :=
  { name := "job-a", namespace_field := "default", priority := .URGENT
    creation_timestamp := 0
    resources := { cpu := some 4, gpu := some 2, memory := some 8192 } }

/-- A gang job whose sibling is absent from the pending set
(scenario 4's `g1-a` with `g1-b` missing). -/
def g1a : JobInfo :=
  { name := "g1-a", namespace_field := "default", priority := .NORMAL
    creation_timestamp := 0, resources := {}
    gang_scheduling := true, gang_id := some "g1" }

/-- The singleton job `h1` of the spec's scenario 4. -/
def h1 : JobInfo :=
  { name := "h1", namespace_field := "default", priority := .NORMAL
    creation_timestamp := 0, resources := {} }

/-- A job with `gang_scheduling` set but no `gang_id`. -/
def gNone : JobInfo :=
  { name := "g-none", namespace_field := "default", priority := .NORMAL
    creation_timestamp := 0, resources := {}
    gang_scheduling := true, gang_id := none }

/-- Two jobs with identical score-relevant data but names in reverse
lexicographic order relative to their presentation. -/
def cexTieA : JobInfo :=
  { name := "a", namespace_field := "default", priority := .NORMAL
    creation_timestamp := 0, resources := {} }

/-- See `cexTieA`. -/
def cexTieB : JobInfo :=
  { name := "b", namespace_field := "default", priority := .NORMAL
    creation_timestamp := 0, resources := {} }

/-- A job created 10 seconds in the future of the evaluation instant. -/
def cexFutureJob : JobInfo :=
  { name := "future", namespace_field := "default", priority := .NORMAL
    creation_timestamp := 10, resources := {} }

/-- A raw job whose memory quantity string is unrecognized. -/
def cexRawBad : RawJob :=
  { name := "bad-mem", namespace_field := "default", creation_timestamp := 0
    cpu_request := some "500m", memory_request := some "10Xi" }

/-- 25 scored jobs with distinct scores. -/
def cexList25 : List (JobInfo × ℚ) :=
  (List.range 25).map (fun i =>
    ({ name := "j", namespace_field := "default", priority := .NORMAL
       creation_timestamp := 0, resources := {} }, (i : ℚ)))

end DRF

namespace DRF

theorem pymax_eq_foldl_zero (l : List ℚ) (h : ∀ x ∈ l, 0 ≤ x) :
    pymax l = l.foldl max 0 := by
  cases l with
  | nil => rfl
  | cons s rest =>
      show rest.foldl max s = rest.foldl max (max 0 s)
      rw [max_eq_right (h s (List.mem_cons_self s rest))]

theorem share_list_eq_keys (job : JobInfo) (cluster_info : ClusterInfo) :
    share_list job cluster_info = resourceKeys.filterMap (fun k =>
      match job.resources.get k, cluster_info.total_resources.get k with
      | some req, some total => if 0 < total then some (req / total) else none
      | _, _ => none) := by
  unfold share_list ResourceDict.items
  obtain ⟨jc, jg, jm⟩ := job.resources
  obtain ⟨tc, tg, tm⟩ := cluster_info.total_resources
  cases jc <;> cases jg <;> cases jm <;> cases tc <;> cases tg <;> cases tm <;> rfl

theorem fold_share_eq (job : JobInfo) (cluster_info : ClusterInfo) :
    ∀ (kinds : List ResourceType) (a : ℚ), 0 ≤ a →
      (kinds.filterMap (fun k =>
        match job.resources.get k, cluster_info.total_resources.get k with
        | some req, some total => if 0 < total then some (req / total) else none
        | _, _ => none)).foldl max a
      = (kinds.filterMap (fun k =>
        match cluster_info.total_resources.get k with
        | some total =>
            if 0 < total then some (((job.resources.get k).getD 0) / total)
            else none
        | none => none)).foldl max a := by
  intro kinds
  induction kinds with
  | nil => intro a _; rfl
  | cons k ks ih =>
      intro a ha
      cases htot : cluster_info.total_resources.get k with
      | none =>
          cases hreqk : job.resources.get k <;>
            simp only [List.filterMap_cons, htot, hreqk] <;> exact ih a ha
      | some t =>
          by_cases hpos : 0 < t
          · cases hreqk : job.resources.get k with
            | some v =>
                simp only [List.filterMap_cons, htot, hreqk, if_pos hpos,
                  Option.getD_some, List.foldl_cons]
                exact ih (max a (v / t)) (le_trans ha (le_max_left a (v / t)))
            | none =>
                simp only [List.filterMap_cons, htot, hreqk, if_pos hpos,
                  Option.getD_none, zero_div, List.foldl_cons]
                rw [max_eq_left ha]
                exact ih a ha
          · cases hreqk : job.resources.get k <;>
              simp only [List.filterMap_cons, htot, hreqk, if_neg hpos] <;>
              exact ih a ha

theorem chunked_flatten : ∀ (fuel : ℕ) (l : List α), l.length ≤ fuel →
    (chunked fuel l).flatten = l := by
  intro fuel
  induction fuel with
  | zero =>
      intro l hl
      have : l = [] := List.eq_nil_of_length_eq_zero (Nat.le_zero.mp hl)
      subst this; rfl
  | succ f ih =>
      intro l hl
      cases l with
      | nil => rfl
      | cons a as =>
          show (List.take 10 (a :: as) :: chunked f (List.drop 10 (a :: as))).flatten
            = a :: as
          rw [List.flatten_cons, ih (List.drop 10 (a :: as)) ?_,
            List.take_append_drop]
          rw [List.length_drop]
          omega

theorem chunked_length_le : ∀ (fuel : ℕ) (l : List α) (b : List α),
    b ∈ chunked fuel l → b.length ≤ 10 := by
  intro fuel
  induction fuel with
  | zero => intro l b hb; cases hb
  | succ f ih =>
      intro l b hb
      cases l with
      | nil => cases hb
      | cons a as =>
          rcases List.mem_cons.mp hb with h | h
          · subst h
            rw [List.length_take]
            exact min_le_left 10 _
          · exact ih _ b h

theorem chunked_map_length : ∀ (fuel : ℕ) (l : List α), l.length ≤ fuel →
    (chunked fuel l).map List.length = length_batches fuel l.length := by
  intro fuel
  induction fuel with
  | zero =>
      intro l hl
      have : l = [] := List.eq_nil_of_length_eq_zero (Nat.le_zero.mp hl)
      subst this; rfl
  | succ f ih =>
      intro l hl
      cases l with
      | nil => rfl
      | cons a as =>
          show (List.take 10 (a :: as)).length ::
              (chunked f (List.drop 10 (a :: as))).map List.length
            = min 10 (as.length + 1) :: length_batches f (as.length + 1 - 10)
          rw [List.length_take, ih (List.drop 10 (a :: as)) ?_, List.length_drop]
          · rfl
          · rw [List.length_drop]; omega

theorem length_batches_zero : ∀ fuel, length_batches fuel 0 = [] := by
  intro fuel; cases fuel <;> rfl

theorem length_batches_ne_nil {fuel n : ℕ}
    (h : length_batches fuel n ≠ []) : 0 < n := by
  cases fuel with
  | zero => exact absurd rfl h
  | succ f =>
      cases n with
      | zero => exact absurd rfl h
      | succ m => exact Nat.succ_pos m

theorem mem_dropLast_length_batches : ∀ (fuel n x : ℕ),
    x ∈ (length_batches fuel n).dropLast → x = 10 := by
  intro fuel
  induction fuel with
  | zero => intro n x hx; cases hx
  | succ f ih =>
      intro n x hx
      cases n with
      | zero => cases hx
      | succ m =>
          show x = 10
          rcases hrest : length_batches f (m + 1 - 10) with _ | ⟨b, t⟩
          · rw [show length_batches (f + 1) (m + 1)
                = [min 10 (m + 1)] by rw [show length_batches (f + 1) (m + 1)
                  = min 10 (m + 1) :: length_batches f (m + 1 - 10) from rfl,
                  hrest]] at hx
            cases hx
          · rw [show length_batches (f + 1) (m + 1)
              = min 10 (m + 1) :: length_batches f (m + 1 - 10) from rfl,
              hrest, List.dropLast_cons₂] at hx
            rcases List.mem_cons.mp hx with h | h
            · subst h
              have hm : 0 < m + 1 - 10 := by
                apply @length_batches_ne_nil f (m + 1 - 10)
                rw [hrest]; exact List.cons_ne_nil b t
              exact min_eq_left (by omega)
            · rw [← hrest] at h
              exact ih (m + 1 - 10) x h

theorem mem_groupMembers_add (gid : String) (j : JobInfo) :
    ∀ (gs : List (String × List JobInfo)) (x : JobInfo),
      x ∈ groupMembers (add_to_group gs gid j) →
      x ∈ groupMembers gs ∨ x = j := by
  intro gs
  induction gs with
  | nil =>
      intro x hx
      simp only [add_to_group, groupMembers, List.map_cons, List.map_nil,
        List.flatten_cons, List.flatten_nil, List.append_nil,
        List.mem_singleton] at hx
      exact Or.inr hx
  | cons g rest ih =>
      obtain ⟨gk, gl⟩ := g
      intro x hx
      by_cases hg : gk = gid
      · simp only [add_to_group, if_pos hg, groupMembers, List.map_cons,
          List.flatten_cons, List.mem_append, List.mem_singleton] at hx ⊢
        tauto
      · simp only [add_to_group, if_neg hg, groupMembers, List.map_cons,
          List.flatten_cons, List.mem_append] at hx ⊢
        rcases hx with h | h
        · tauto
        · have := ih x h
          simp only [groupMembers] at this
          tauto

theorem mem_gang_groups_foldl (jobs : List JobInfo) :
    ∀ (gs : List (String × List JobInfo)),
      (∀ x ∈ groupMembers gs,
        x.gang_scheduling = true ∧ str_truthy x.gang_id = true) →
      ∀ x ∈ groupMembers (jobs.foldl (fun gs j =>
          if j.gang_scheduling && str_truthy j.gang_id then
            add_to_group gs (j.gang_id.getD "") j
          else gs) gs),
        x.gang_scheduling = true ∧ str_truthy x.gang_id = true := by
  induction jobs with
  | nil => intro gs hgs x hx; exact hgs x hx
  | cons j js ih =>
      intro gs hgs x hx
      rw [List.foldl_cons] at hx
      by_cases hc : j.gang_scheduling && str_truthy j.gang_id
      · rw [if_pos hc] at hx
        refine ih _ ?_ x hx
        intro y hy
        rcases mem_groupMembers_add (j.gang_id.getD "") j gs y hy with h | h
        · exact hgs y h
        · subst h
          exact ⟨(Bool.and_eq_true _ _ |>.mp hc).1,
            (Bool.and_eq_true _ _ |>.mp hc).2⟩
      · rw [if_neg hc] at hx
        exact ih gs hgs x hx

theorem mem_gang_groups (jobs : List JobInfo) (x : JobInfo)
    (hx : x ∈ groupMembers (gang_groups jobs)) :
    x.gang_scheduling = true ∧ str_truthy x.gang_id = true :=
  mem_gang_groups_foldl jobs [] (fun y hy => absurd hy (List.not_mem_nil y)) x hx

theorem mem_ready_gangs_foldl (groups : List (String × List JobInfo)) :
    ∀ (acc : List JobInfo) (x : JobInfo),
      x ∈ groups.foldl
        (fun acc g => if g.2.all jobinfo_truthy then acc ++ g.2 else acc) acc →
      x ∈ acc ∨ x ∈ groupMembers groups := by
  induction groups with
  | nil => intro acc x hx; exact Or.inl hx
  | cons g gs ih =>
      intro acc x hx
      rw [List.foldl_cons] at hx
      rcases ih _ x hx with h | h
      · by_cases hc : g.2.all jobinfo_truthy
        · rw [if_pos hc] at h
          rcases List.mem_append.mp h with h₁ | h₁
          · exact Or.inl h₁
          · right
            show x ∈ ((g :: gs).map Prod.snd).flatten
            rw [List.map_cons, List.flatten_cons]
            exact List.mem_append.mpr (Or.inl h₁)
        · rw [if_neg hc] at h
          exact Or.inl h
      · right
        show x ∈ ((g :: gs).map Prod.snd).flatten
        rw [List.map_cons, List.flatten_cons]
        exact List.mem_append.mpr (Or.inr h)

/-- C1: for every job with non-negative age and every cluster snapshot, the
priority score equals `classWeight(priorityClass) + dominantShare - alpha *
age_seconds`, with `classWeight URGENT = 0`, `classWeight NORMAL = 1000`,
and the constructor default for alpha being 0.1. -/
theorem priority_score_formula (aging_alpha now : ℚ) (job : JobInfo)
    (cluster_info : ClusterInfo) (_hage : 0 ≤ now - job.creation_timestamp) :
    calculate_priority_score aging_alpha now job cluster_info =
      classWeight job.priority + calculate_dominant_share job cluster_info
        - aging_alpha * (now - job.creation_timestamp) ∧
    classWeight .URGENT = 0 ∧ classWeight .NORMAL = 1000 ∧
    default_aging_alpha = 1 / 10 := by
  refine ⟨?_, rfl, rfl, rfl⟩
  cases hp : job.priority <;>
    simp [calculate_priority_score, classWeight, hp]

/-- Witness for `priority_score_formula` at the spec's scenario-1 job A
evaluated 0 seconds after creation. -/
theorem priority_score_formula_witness :
    (0 : ℚ) ≤ 0 - cexJobA.creation_timestamp ∧
    (calculate_priority_score (1 / 10) 0 cexJobA cexCluster =
      classWeight cexJobA.priority + calculate_dominant_share cexJobA cexCluster
        - (1 / 10) * (0 - cexJobA.creation_timestamp) ∧
    classWeight .URGENT = 0 ∧ classWeight .NORMAL = 1000 ∧
    default_aging_alpha = 1 / 10) :=
  ⟨by norm_num [cexJobA],
    priority_score_formula (1 / 10) 0 cexJobA cexCluster (by norm_num [cexJobA])⟩

/-- C2: for jobs whose requested amounts are non-negative (the data model's
invariant), `calculate_dominant_share` computes exactly the spec's formula:
the maximum over kinds with positive cluster total of request/total, kinds
with zero or absent total skipped, and 0 when no kind is considered. -/
theorem dominant_share_matches_spec (job : JobInfo) (cluster_info : ClusterInfo)
    (hreq : ∀ k v, job.resources.get k = some v → 0 ≤ v) :
    calculate_dominant_share job cluster_info
      = spec_dominant_share job cluster_info := by
  unfold calculate_dominant_share spec_dominant_share
  rw [share_list_eq_keys]
  rw [pymax_eq_foldl_zero, pymax_eq_foldl_zero]
  · exact fold_share_eq job cluster_info resourceKeys 0 le_rfl
  · intro x hx
    rcases List.mem_filterMap.mp hx with ⟨k, _, hk⟩
    split at hk
    · rename_i t htot
      split at hk
      · rename_i hpos
        rcases Option.some.inj hk with rfl
        apply div_nonneg _ (le_of_lt hpos)
        rcases hr : job.resources.get k with _ | v
        · simp
        · simp only [Option.getD_some]
          exact hreq k v hr
      · cases hk
    · cases hk
  · intro x hx
    rcases List.mem_filterMap.mp hx with ⟨k, _, hk⟩
    split at hk
    · rename_i req t hr htot
      split at hk
      · rename_i hpos
        rcases Option.some.inj hk with rfl
        exact div_nonneg (hreq k req hr) (le_of_lt hpos)
      · cases hk
    · cases hk

/-- Witness for `dominant_share_matches_spec` at the spec's scenario-1 job A
against the scenario-1 cluster, where both sides evaluate to 1/4. -/
theorem dominant_share_matches_spec_witness :
    (∀ k v, cexJobA.resources.get k = some v → 0 ≤ v) ∧
    calculate_dominant_share cexJobA cexCluster
      = spec_dominant_share cexJobA cexCluster ∧
    calculate_dominant_share cexJobA cexCluster = 1 / 4 := by
  have hreq : ∀ k v, cexJobA.resources.get k = some v → 0 ≤ v := by
    intro k v h
    cases k <;>
      simp only [cexJobA, ResourceDict.get, Option.some.injEq] at h <;>
      rw [← h] <;> norm_num
  refine ⟨hreq, dominant_share_matches_spec cexJobA cexCluster hreq, ?_⟩
  norm_num [calculate_dominant_share, share_list, ResourceDict.items,
    resourceKeys, ResourceDict.get, cexJobA, cexCluster, pymax, max_def,
    List.filterMap_cons, List.filterMap_nil, List.foldl_cons, List.foldl_nil]

/-- C3 (code bug): on the pending set `{g1-a, h1}` where `g1-a` belongs to a
gang whose sibling `g1-b` is absent, the gang filter forwards `g1-a` anyway:
`all(job for job in gang_jobs)` tests Python truthiness of the member
objects, which is constantly true, so the all-members-present check never
drops anything and the output is `[g1-a, h1]`, not `[h1]`. -/
theorem gang_filter_forwards_lone_gang_member :
    g1a.gang_scheduling = true ∧ g1a.gang_id = some "g1" ∧
    handle_gang_scheduling [g1a, h1] = [g1a, h1] := by decide

/-- C5 (amended): the aging term is not clamped for a job created in the
future of the evaluation instant; the score equals
`classWeight + dominantShare - alpha * age` even for negative age and, for
positive alpha, strictly exceeds `classWeight + dominantShare`. -/
theorem negative_age_raises_score (aging_alpha now : ℚ) (job : JobInfo)
    (cluster_info : ClusterInfo) (hage : now - job.creation_timestamp < 0)
    (halpha : 0 < aging_alpha) :
    calculate_priority_score aging_alpha now job cluster_info =
      classWeight job.priority + calculate_dominant_share job cluster_info
        - aging_alpha * (now - job.creation_timestamp) ∧
    classWeight job.priority + calculate_dominant_share job cluster_info
      < calculate_priority_score aging_alpha now job cluster_info := by
  have hneg : aging_alpha * (now - job.creation_timestamp) < 0 :=
    mul_neg_of_pos_of_neg halpha hage
  constructor
  · cases hp : job.priority <;>
      simp [calculate_priority_score, classWeight, hp]
  · cases hp : job.priority <;>
      simp only [calculate_priority_score, classWeight, hp] <;>
      simp <;> linarith

/-- Witness for `negative_age_raises_score`: a NORMAL job created at t = 10
scored at t = 0 with alpha = 0.1. -/
theorem negative_age_raises_score_witness :
    ((0 : ℚ) - cexFutureJob.creation_timestamp < 0 ∧ (0 : ℚ) < 1 / 10) ∧
    (calculate_priority_score (1 / 10) 0 cexFutureJob cexCluster =
      classWeight cexFutureJob.priority
        + calculate_dominant_share cexFutureJob cexCluster
        - (1 / 10) * (0 - cexFutureJob.creation_timestamp) ∧
    classWeight cexFutureJob.priority
        + calculate_dominant_share cexFutureJob cexCluster
      < calculate_priority_score (1 / 10) 0 cexFutureJob cexCluster) :=
  ⟨⟨by norm_num [cexFutureJob], by norm_num⟩,
    negative_age_raises_score (1 / 10) 0 cexFutureJob cexCluster
      (by norm_num [cexFutureJob]) (by norm_num)⟩

/-- C5 (counterexample): for the future-dated job at alpha = 0.1 the score is
1001, not the 1000 that `classWeight + dominantShare` gives, so the claimed
clamp of the aging term to 0 does not happen. -/
theorem negative_age_not_clamped_cex :
    cexFutureJob.creation_timestamp = 10 ∧
    classWeight cexFutureJob.priority
      + calculate_dominant_share cexFutureJob cexCluster = 1000 ∧
    calculate_priority_score (1 / 10) 0 cexFutureJob cexCluster = 1001 := by
  have hne : cexFutureJob.priority ≠ JobPriority.URGENT := by decide
  have h1 : calculate_dominant_share cexFutureJob cexCluster = 0 := rfl
  refine ⟨rfl, ?_, ?_⟩
  · rw [h1]
    norm_num [cexFutureJob, classWeight]
  · simp only [calculate_priority_score, h1, if_neg hne]
    norm_num [cexFutureJob]

/-- C4 (counterexample): two jobs with equal score and equal creationInstant
whose names are in reverse lexicographic order stay in presentation order
(the sort key is the score alone), so the ranking does not order ties by
identity and re-ranking the same set presented in the other order yields a
different sequence. -/
theorem ranking_tiebreak_cex :
    cexTieB.name = "b" ∧ cexTieA.name = "a" ∧
    cexTieB.creation_timestamp = cexTieA.creation_timestamp ∧
    calculate_priority_score (1 / 10) 0 cexTieB cexCluster = 1000 ∧
    calculate_priority_score (1 / 10) 0 cexTieA cexCluster = 1000 ∧
    calculate_job_priorities_pure (1 / 10) 0 [cexTieB, cexTieA] cexCluster
      = [(cexTieB, 1000), (cexTieA, 1000)] ∧
    calculate_job_priorities_pure (1 / 10) 0 [cexTieA, cexTieB] cexCluster
      ≠ calculate_job_priorities_pure (1 / 10) 0 [cexTieB, cexTieA] cexCluster := by
  have hsB : calculate_priority_score (1 / 10) 0 cexTieB cexCluster = 1000 := by
    have hne : cexTieB.priority ≠ JobPriority.URGENT := by decide
    have h0 : calculate_dominant_share cexTieB cexCluster = 0 := rfl
    simp only [calculate_priority_score, h0, if_neg hne]
    norm_num [cexTieB]
  have hsA : calculate_priority_score (1 / 10) 0 cexTieA cexCluster = 1000 := by
    have hne : cexTieA.priority ≠ JobPriority.URGENT := by decide
    have h0 : calculate_dominant_share cexTieA cexCluster = 0 := rfl
    simp only [calculate_priority_score, h0, if_neg hne]
    norm_num [cexTieA]
  have hgBA : handle_gang_scheduling [cexTieB, cexTieA] = [cexTieB, cexTieA] :=
    rfl
  have hgAB : handle_gang_scheduling [cexTieA, cexTieB] = [cexTieA, cexTieB] :=
    rfl
  have eBA : calculate_job_priorities_pure (1 / 10) 0 [cexTieB, cexTieA]
      cexCluster = [(cexTieB, 1000), (cexTieA, 1000)] := by
    simp only [calculate_job_priorities_pure, hgBA, List.map_cons,
      List.map_nil, hsB, hsA, py_sort_by_score, List.insertionSort]
    rw [List.orderedInsert, List.orderedInsert,
      if_pos (show score_le (cexTieB, (1000 : ℚ)) (cexTieA, 1000) from le_rfl)]
  have eAB : calculate_job_priorities_pure (1 / 10) 0 [cexTieA, cexTieB]
      cexCluster = [(cexTieA, 1000), (cexTieB, 1000)] := by
    simp only [calculate_job_priorities_pure, hgAB, List.map_cons,
      List.map_nil, hsB, hsA, py_sort_by_score, List.insertionSort]
    rw [List.orderedInsert, List.orderedInsert,
      if_pos (show score_le (cexTieA, (1000 : ℚ)) (cexTieB, 1000) from le_rfl)]
  refine ⟨rfl, rfl, rfl, hsB, hsA, eBA, ?_⟩
  rw [eBA, eAB]
  intro h
  have hhead : cexTieA = cexTieB := congrArg Prod.fst (List.head_eq_of_cons_eq h)
  have : cexTieA.name = cexTieB.name := congrArg JobInfo.name hhead
  revert this
  decide

/-- C4 (amended): the ranking is a permutation of the scored jobs, sorted by
score ascending with ties kept in input order (the sort is stable on the
score key alone, with no creationInstant or identity tie-break), and
re-ranking an already-ranked list returns it unchanged. -/
theorem ranking_sorted_and_stable (aging_alpha now : ℚ) (jobs : List JobInfo)
    (cluster_info : ClusterInfo) :
    (calculate_job_priorities_pure aging_alpha now jobs cluster_info).Perm
      ((handle_gang_scheduling jobs).map
        (fun j => (j, calculate_priority_score aging_alpha now j cluster_info))) ∧
    List.Pairwise score_le
      (calculate_job_priorities_pure aging_alpha now jobs cluster_info) ∧
    py_sort_by_score
        (calculate_job_priorities_pure aging_alpha now jobs cluster_info)
      = calculate_job_priorities_pure aging_alpha now jobs cluster_info := by
  refine ⟨List.perm_insertionSort _ _, List.sorted_insertionSort _ _, ?_⟩
  exact List.Sorted.insertionSort_eq (List.sorted_insertionSort _ _)

theorem extract_none_of_memory_parse_fail (raw : RawJob) (s : String)
    (hmem : raw.memory_request = some s)
    (hfail : parse_memory_request s = none) :
    extract_job_info raw = none := by
  unfold extract_job_info
  rw [hmem]
  simp only [req_field, hfail, Option.map_none', Option.none_bind]
  cases hc : raw.cpu_request with
  | none => rfl
  | some c =>
      simp only [req_field]
      cases parse_cpu_request c <;> rfl

/-- C6 (amended): an unrecognized memory quantity string makes
`_parse_memory_request` fail, the exception propagates, and
`_extract_job_info` returns `None`: the whole job is omitted from the tick
rather than scored with the field treated as absent. -/
theorem malformed_memory_aborts_extraction (raw : RawJob) (s : String)
    (hmem : raw.memory_request = some s)
    (hfail : parse_memory_request s = none) :
    extract_job_info raw = none :=
  extract_none_of_memory_parse_fail raw s hmem hfail

/-- Witness for `malformed_memory_aborts_extraction` at the concrete raw job
whose memory request is the unrecognized string `10Xi`. -/
theorem malformed_memory_aborts_extraction_witness :
    cexRawBad.memory_request = some "10Xi" ∧
    parse_memory_request "10Xi" = none ∧
    extract_job_info cexRawBad = none :=
  ⟨rfl, by decide,
    malformed_memory_aborts_extraction cexRawBad "10Xi" rfl (by decide)⟩

/-- C6 (counterexample): the raw job `cexRawBad` has a well-formed CPU
request and the unrecognized memory request `10Xi`; the claim says it is
still converted to a JobRecord with the memory field absent, but extraction
returns `None` and the job is dropped from the tick. -/
theorem malformed_quantity_skips_job_cex :
    cexRawBad.cpu_request = some "500m" ∧
    parse_cpu_request "500m" = some (1 / 2) ∧
    parse_memory_request "10Xi" = none ∧
    extract_job_info cexRawBad = none := by
  have hxi : parse_memory_request "10Xi" = none := by decide
  refine ⟨rfl, ?_, hxi,
    extract_none_of_memory_parse_fail cexRawBad "10Xi" rfl hxi⟩
  show (parse_float (drop_right "500m" 1)).map (fun v => v / 1000)
    = some (1 / 2)
  have h500 : parse_float (drop_right "500m" 1) = some 500 := by decide
  rw [h500]
  norm_num

/-- C7 (amended): the patch carries the three `drf-scheduler` annotation
values (score, rank, updater identity `drf-controller`) and sets
`spec.priority` to `int(score * 1000)`, i.e. truncation toward zero, not
rounding to nearest. -/
theorem patch_body_fields (priority_score : ℚ) (rank : ℕ) :
    (update_workload_priority_patch priority_score rank).priority_score_ann
        = priority_score ∧
    (update_workload_priority_patch priority_score rank).rank_ann = rank ∧
    (update_workload_priority_patch priority_score rank).updated_by
        = "drf-controller" ∧
    (update_workload_priority_patch priority_score rank).spec_priority
        = py_int (priority_score * 1000) :=
  ⟨rfl, rfl, rfl, rfl⟩

/-- C7 (counterexample): at score 3/2000 the patch writes
`int(1.5) = 1` into `spec.priority`, while round-to-nearest gives 2. -/
theorem priority_truncation_cex :
    (update_workload_priority_patch (3 / 2000) 1).spec_priority = 1 ∧
    round ((3 / 2000 : ℚ) * 1000) = 2 ∧
    (update_workload_priority_patch (3 / 2000) 1).spec_priority
      ≠ round ((3 / 2000 : ℚ) * 1000) := by
  have h32 : ((3 / 2000 : ℚ) * 1000) = 3 / 2 := by norm_num
  have h1 : (update_workload_priority_patch (3 / 2000) 1).spec_priority = 1 := by
    show py_int ((3 / 2000 : ℚ) * 1000) = 1
    rw [h32]
    rw [py_int, if_pos (by norm_num : (0 : ℚ) ≤ 3 / 2)]
    norm_num [Int.floor_eq_iff]
  have h2 : round ((3 / 2000 : ℚ) * 1000) = 2 := by
    rw [h32]
    rw [round_eq]
    norm_num [Int.floor_eq_iff]
  exact ⟨h1, h2, by rw [h1, h2]; decide⟩

/-- C8: the updater batches the score-ascending ranking into consecutive
slices of 10: the batches concatenate back to the sorted list, every batch
has at most 10 jobs, every batch but the last has exactly 10, and a ranking
of 25 jobs yields batch sizes 10, 10, 5 with the 10 lowest-score jobs first
(the sorted list is score-ascending, so earlier batches hold lower scores). -/
theorem update_batching (l : List (JobInfo × ℚ)) :
    (score_batches l).flatten = py_sort_by_score l ∧
    List.Pairwise score_le (py_sort_by_score l) ∧
    (∀ b ∈ score_batches l, b.length ≤ 10) ∧
    (∀ x ∈ ((score_batches l).map List.length).dropLast, x = 10) ∧
    (l.length = 25 → (score_batches l).map List.length = [10, 10, 5]) := by
  have hlen : (py_sort_by_score l).length = l.length :=
    (List.perm_insertionSort score_le l).length_eq
  refine ⟨chunked_flatten _ _ le_rfl, List.sorted_insertionSort _ _,
    fun b hb => chunked_length_le _ _ b hb, ?_, ?_⟩
  · intro x hx
    rw [show score_batches l
        = chunked (py_sort_by_score l).length (py_sort_by_score l) from rfl,
      chunked_map_length _ _ le_rfl] at hx
    exact mem_dropLast_length_batches _ _ x hx
  · intro h25
    rw [show score_batches l
        = chunked (py_sort_by_score l).length (py_sort_by_score l) from rfl,
      chunked_map_length _ _ le_rfl, hlen, h25]
    rfl

/-- Witness for `update_batching` at a concrete ranking of 25 jobs. -/
theorem update_batching_witness :
    cexList25.length = 25 ∧
    (score_batches cexList25).map List.length = [10, 10, 5] :=
  ⟨rfl, (update_batching cexList25).2.2.2.2 rfl⟩

/-- C9: a job with `gang_scheduling` set but no `gang_id` is excluded from
the gang filter's output entirely — it joins no gang group and is filtered
out of the singleton list — and consequently never appears among the scored
pairs of the tick. -/
theorem gang_id_none_excluded (jobs : List JobInfo) (j : JobInfo)
    (hgs : j.gang_scheduling = true) (hid : j.gang_id = none) :
    j ∉ handle_gang_scheduling jobs ∧
    ∀ (aging_alpha now : ℚ) (cluster_info : ClusterInfo),
      ∀ p ∈ calculate_job_priorities_pure aging_alpha now jobs cluster_info,
        p.1 ≠ j := by
  have hmain : j ∉ handle_gang_scheduling jobs := by
    intro hmem
    simp only [handle_gang_scheduling] at hmem
    rcases List.mem_append.mp hmem with h | h
    · rcases mem_ready_gangs_foldl (gang_groups jobs) [] j h with h₁ | h₁
      · cases h₁
      · have htr := (mem_gang_groups jobs j h₁).2
        rw [hid] at htr
        exact Bool.noConfusion htr
    · have hfil := List.of_mem_filter h
      rw [hgs] at hfil
      exact Bool.noConfusion hfil
  refine ⟨hmain, ?_⟩
  intro aging_alpha now cluster_info p hp heq
  have hp' : p ∈ (handle_gang_scheduling jobs).map
      (fun x => (x, calculate_priority_score aging_alpha now x cluster_info)) :=
    ((List.perm_insertionSort score_le _).mem_iff).mp hp
  rcases List.mem_map.mp hp' with ⟨x, hxmem, hxeq⟩
  apply hmain
  have hx : x = j := by rw [← hxeq] at heq; exact heq
  rwa [hx] at hxmem

/-- Witness for `gang_id_none_excluded` at the concrete pending set
`[gNone, h1]`. -/
theorem gang_id_none_excluded_witness :
    gNone.gang_scheduling = true ∧ gNone.gang_id = none ∧
    gNone ∉ handle_gang_scheduling [gNone, h1] :=
  ⟨rfl, rfl, (gang_id_none_excluded [gNone, h1] gNone rfl rfl).1⟩

/-- C10: for inputs with pairwise-distinct scores the updater's plan —
ranks, per-job patch bodies, and their order — is invariant under
permutation of the input list, because the updater first sorts by score
ascending and two sorted permutations of the same distinct-score list are
equal. -/
theorem update_plan_perm_invariant (l₁ l₂ : List (JobInfo × ℚ))
    (hperm : l₁.Perm l₂)
    (hdist : l₁.Pairwise (fun a b => a.2 ≠ b.2)) :
    update_plan l₁ = update_plan l₂ := by
  suffices h : py_sort_by_score l₁ = py_sort_by_score l₂ by
    unfold update_plan
    rw [h]
  have hp₁ : (py_sort_by_score l₁).Perm l₁ := List.perm_insertionSort _ _
  have hp₂ : (py_sort_by_score l₂).Perm l₂ := List.perm_insertionSort _ _
  have hsymm : ∀ {a b : JobInfo × ℚ}, a.2 ≠ b.2 → b.2 ≠ a.2 :=
    fun h => Ne.symm h
  have hd₁ : (py_sort_by_score l₁).Pairwise (fun a b => a.2 ≠ b.2) :=
    (hp₁.pairwise_iff hsymm).mpr hdist
  have hd₂ : (py_sort_by_score l₂).Pairwise (fun a b => a.2 ≠ b.2) :=
    (hp₂.pairwise_iff hsymm).mpr ((hperm.pairwise_iff hsymm).mp hdist)
  have hs₁ : List.Pairwise score_le (py_sort_by_score l₁) :=
    List.sorted_insertionSort _ _
  have hs₂ : List.Pairwise score_le (py_sort_by_score l₂) :=
    List.sorted_insertionSort _ _
  have hst₁ : List.Pairwise score_lt (py_sort_by_score l₁) :=
    (hs₁.and hd₁).imp (fun h => lt_of_le_of_ne h.1 h.2)
  have hst₂ : List.Pairwise score_lt (py_sort_by_score l₂) :=
    (hs₂.and hd₂).imp (fun h => lt_of_le_of_ne h.1 h.2)
  exact List.eq_of_perm_of_sorted (hp₁.trans (hperm.trans hp₂.symm)) hst₁ hst₂

/-- Witness for `update_plan_perm_invariant` on a two-job input with
distinct scores presented in both orders. -/
theorem update_plan_perm_invariant_witness :
    ([((cexTieA, 2) : JobInfo × ℚ), (cexTieB, 1)]).Perm
      [(cexTieB, 1), (cexTieA, 2)] ∧
    ([((cexTieA, 2) : JobInfo × ℚ), (cexTieB, 1)]).Pairwise
      (fun a b => a.2 ≠ b.2) ∧
    update_plan [(cexTieA, 2), (cexTieB, 1)]
      = update_plan [(cexTieB, 1), (cexTieA, 2)] := by
  have hperm : ([((cexTieA, 2) : JobInfo × ℚ), (cexTieB, 1)]).Perm
      [(cexTieB, 1), (cexTieA, 2)] :=
    List.Perm.swap (cexTieB, 1) (cexTieA, 2) []
  have hdist : ([((cexTieA, 2) : JobInfo × ℚ), (cexTieB, 1)]).Pairwise
      (fun a b => a.2 ≠ b.2) := by
    norm_num [List.pairwise_cons]
  exact ⟨hperm, hdist, update_plan_perm_invariant _ _ hperm hdist⟩

end DRF
